import Mathlib

/-!
Verification development for the Woot deals bot (src/main.py).

Prices are embedded as rationals (Python ints/floats used by the program are
exact decimals in every code path the claims touch).  Python dictionaries
holding the historical lows are embedded as association lists, and the JSON
shapes of raw feed items are embedded as explicit inductive types recording
exactly the distinctions the code tests for (key present/absent, numeric or
not).  Randomness (jitter draws) is a parameter constrained to the interval
the source passes to random.uniform.
-/

namespace WootBot

/-! ### Configuration constants (src/main.py lines 23-38) -/

def MAX_DEALS_PER_PAGE : ℕ := 10

def FEED_NAMES : List String :=
  ["All", "Clearance", "Computers", "Electronics", "Featured", "Home",
   "Gourmet", "Shirts", "Sports", "Tools", "Wootoff"]

def MIN_SALE_PRICE : ℚ := 75

def MIN_PERCENT_OFF_LOW_TIER : ℚ := 50

def MIN_DOLLAR_SAVINGS : ℚ := 40

/-! ### Raw feed items and normalized deals (src/main.py lines 125-158) -/

/-- Value found under the key Minimum of a price sub-object: either a number
(Python int or float, embedded as a rational) or some non-numeric JSON value,
for which isinstance(x, (int, float)) is false. -/
inductive MinVal where
  | num (q : ℚ)
  | nonNum
deriving DecidableEq, Repr

/-- The SalePrice / ListPrice field of a raw item. missing covers an absent
key, a None value or any falsy value (e.g. an empty dict), all of which fail
the truthiness test on line 142; badObj is a truthy non-dict value, whose
.get call raises AttributeError, caught on line 155 leaving the defaults;
obj is a truthy dict with an optional Minimum entry. -/
inductive PriceField where
  | missing
  | badObj
  | obj (minimum : Option MinVal)
deriving DecidableEq, Repr

/-- A raw item record as consumed by process_deal_data.  Option none models a
missing key (dict.get returning the default). -/
structure RawDeal where
  offerId : Option String
  title : Option String
  url : Option String
  salePrice : PriceField
  listPrice : PriceField
  isSoldOut : Option Bool
deriving DecidableEq, Repr

/-- The normalized deal dictionary built by process_deal_data. -/
structure Deal where
  offer_id : String
  title : String
  url : String
  feed_name : String
  sale_price : Option ℚ
  list_price : Option ℚ
  discount_percent : ℚ
  savings_amount : ℚ
  is_sold_out : Bool
deriving DecidableEq, Repr

/-- Python round-half-to-even of a rational to an integer. -/
def roundHalfEven (q : ℚ) : ℤ :=
  let f := ⌊q⌋
  let r := q - (f : ℚ)
  if r < 1 / 2 then f
  else if 1 / 2 < r then f + 1
  else if f % 2 = 0 then f else f + 1

/-- Python round(x, 2): round half-to-even at the second decimal. -/
def round2 (q : ℚ) : ℚ := (roundHalfEven (q * 100) : ℚ) / 100

/-- Embedding of process_deal_data (src/main.py lines 125-158): build the
deal with conservative defaults, then derive prices and discount metrics only
when both price sub-objects are truthy dicts with numeric minimums, the list
minimum is positive and the list minimum strictly exceeds the sale minimum. -/
def process_deal_data (raw : RawDeal) (feed_name : String) : Deal :=
  let deal : Deal :=
    { offer_id := raw.offerId.getD "N/A"
      title := raw.title.getD "No Title"
      url := raw.url.getD "#"
      feed_name := feed_name
      sale_price := none
      list_price := none
      discount_percent := 0
      savings_amount := 0
      is_sold_out := raw.isSoldOut.getD true }
  match raw.salePrice, raw.listPrice with
  | PriceField.obj (some (MinVal.num sale_min)),
    PriceField.obj (some (MinVal.num list_min)) =>
    if 0 < list_min ∧ sale_min < list_min then
      { deal with
        sale_price := some sale_min
        list_price := some list_min
        discount_percent := round2 ((list_min - sale_min) / list_min * 100)
        savings_amount := round2 (list_min - sale_min) }
    else deal
  | _, _ => deal

/-- Embedding of passes_strict_rules (src/main.py lines 161-175): the chain
of early returns. -/
def passes_strict_rules (deal : Deal) : Bool :=
  match deal.sale_price with
  | none => false
  | some sale_price =>
    if deal.is_sold_out then false
    else if sale_price < MIN_SALE_PRICE then false
    else if deal.savings_amount < MIN_DOLLAR_SAVINGS then false
    else if deal.discount_percent < MIN_PERCENT_OFF_LOW_TIER then false
    else true

/-- C1: passes_strict_rules is exactly the conjunction of: sale price
present, not sold out, sale price at least 75.00, savings amount at least
40.00 and discount percent at least 50; it returns false whenever any one of
these fails. -/
theorem passes_strict_rules_iff_conj (d : Deal) :
    passes_strict_rules d = true ↔
      ∃ sp : ℚ, d.sale_price = some sp ∧ d.is_sold_out = false ∧
        MIN_SALE_PRICE ≤ sp ∧ MIN_DOLLAR_SAVINGS ≤ d.savings_amount ∧
        MIN_PERCENT_OFF_LOW_TIER ≤ d.discount_percent := by
  cases hsp : d.sale_price with
  | none => simp [passes_strict_rules, hsp]
  | some sp =>
    cases hso : d.is_sold_out <;>
      simp [passes_strict_rules, hsp, hso, not_lt, and_assoc]

/-- C1 witness: a concrete deal on each side of the filter. -/
theorem passes_strict_rules_iff_conj_witness :
    ∃ sp : ℚ,
      ({ offer_id := "A", title := "T", url := "U", feed_name := "All",
         sale_price := some 80, list_price := some 200,
         discount_percent := 60, savings_amount := 120,
         is_sold_out := false } : Deal).sale_price = some sp ∧
      ({ offer_id := "A", title := "T", url := "U", feed_name := "All",
         sale_price := some 80, list_price := some 200,
         discount_percent := 60, savings_amount := 120,
         is_sold_out := false } : Deal).is_sold_out = false ∧
      MIN_SALE_PRICE ≤ sp ∧
      MIN_DOLLAR_SAVINGS ≤
        ({ offer_id := "A", title := "T", url := "U", feed_name := "All",
           sale_price := some 80, list_price := some 200,
           discount_percent := 60, savings_amount := 120,
           is_sold_out := false } : Deal).savings_amount ∧
      MIN_PERCENT_OFF_LOW_TIER ≤
        ({ offer_id := "A", title := "T", url := "U", feed_name := "All",
           sale_price := some 80, list_price := some 200,
           discount_percent := 60, savings_amount := 120,
           is_sold_out := false } : Deal).discount_percent :=
  (passes_strict_rules_iff_conj _).mp (by decide)

/-! ### C2: malformed price inputs -/

/-- True when a price field is an absent (or falsy) sub-object. -/
def subObjMissing : PriceField → Bool
  | PriceField.missing => true
  | _ => false

/-- True when a price sub-object is present as a dict but its Minimum entry
is absent or non-numeric. -/
def minNonNumeric : PriceField → Bool
  | PriceField.obj (some (MinVal.num _)) => false
  | PriceField.obj _ => true
  | _ => false

/-- True when the raw item has a numeric list minimum that is non-positive. -/
def listMinNonPos (raw : RawDeal) : Bool :=
  match raw.listPrice with
  | PriceField.obj (some (MinVal.num l)) => decide (l ≤ 0)
  | _ => false

/-- True when the raw item has a numeric sale minimum that is non-positive. -/
def saleMinNonPos (raw : RawDeal) : Bool :=
  match raw.salePrice with
  | PriceField.obj (some (MinVal.num s)) => decide (s ≤ 0)
  | _ => false

/-- The malformed-input cases for which the normalizer keeps all defaults:
a missing price sub-object, a non-numeric minimum on either side, or a
non-positive list minimum. -/
def defaultedPriceInput (raw : RawDeal) : Bool :=
  subObjMissing raw.salePrice || subObjMissing raw.listPrice ||
  minNonNumeric raw.salePrice || minNonNumeric raw.listPrice ||
  listMinNonPos raw

/-- A raw item whose sale minimum is 0 (non-positive) while the list minimum
is 100: the guard on line 149 tests only the list minimum for positivity. -/
def c2raw : RawDeal :=
  { offerId := some "X", title := some "T", url := some "U",
    salePrice := PriceField.obj (some (MinVal.num 0)),
    listPrice := PriceField.obj (some (MinVal.num 100)),
    isSoldOut := some false }

/-- C2 counterexample: c2raw has a non-positive sale minimum, yet the
normalized deal has discount percent 100, savings amount 100 and a present
sale price, contradicting the claim that any non-positive minimum value
leaves both metrics at 0 and the sale price absent. -/
theorem process_deal_data_nonpos_sale_ctrex :
    saleMinNonPos c2raw = true ∧
    ¬((process_deal_data c2raw "All").discount_percent = 0 ∧
      (process_deal_data c2raw "All").savings_amount = 0 ∧
      (process_deal_data c2raw "All").sale_price = none) := by
  with_unfolding_all decide

/-- C2 amended: for raw items with a missing price sub-object, a non-numeric
minimum, or a non-positive LIST minimum, the normalized deal keeps discount
percent 0, savings amount 0 and an absent sale price and cannot pass the
filter; a raw item with a non-positive SALE minimum may get non-zero derived
metrics, but its deal still cannot pass the filter (its sale price is below
the 75.00 threshold). -/
theorem process_deal_data_bad_input (raw : RawDeal) (feed : String)
    (h : defaultedPriceInput raw = true ∨ saleMinNonPos raw = true) :
    passes_strict_rules (process_deal_data raw feed) = false ∧
    (defaultedPriceInput raw = true →
      (process_deal_data raw feed).discount_percent = 0 ∧
      (process_deal_data raw feed).savings_amount = 0 ∧
      (process_deal_data raw feed).sale_price = none) := by
  obtain ⟨oid, t, u, sp, lp, so⟩ := raw
  cases sp with
  | missing =>
    simp_all [process_deal_data, passes_strict_rules, defaultedPriceInput,
      subObjMissing, minNonNumeric, listMinNonPos]
  | badObj =>
    rcases h with h | h <;>
      simp_all [process_deal_data, passes_strict_rules, defaultedPriceInput,
        subObjMissing, minNonNumeric, listMinNonPos, saleMinNonPos]
  | obj smin =>
    cases lp with
    | missing =>
      cases smin with
      | none =>
        simp_all [process_deal_data, passes_strict_rules, defaultedPriceInput,
          subObjMissing, minNonNumeric, listMinNonPos]
      | some sv =>
        cases sv <;>
          simp_all [process_deal_data, passes_strict_rules, defaultedPriceInput,
            subObjMissing, minNonNumeric, listMinNonPos]
    | badObj =>
      cases smin with
      | none =>
        simp_all [process_deal_data, passes_strict_rules, defaultedPriceInput,
          subObjMissing, minNonNumeric, listMinNonPos]
      | some sv =>
        cases sv <;>
          simp_all [process_deal_data, passes_strict_rules, defaultedPriceInput,
            subObjMissing, minNonNumeric, listMinNonPos, saleMinNonPos]
    | obj lmin =>
      cases smin with
      | none =>
        simp_all [process_deal_data, passes_strict_rules, defaultedPriceInput,
          subObjMissing, minNonNumeric, listMinNonPos]
      | some sv =>
        cases sv with
        | nonNum =>
          simp_all [process_deal_data, passes_strict_rules, defaultedPriceInput,
            subObjMissing, minNonNumeric, listMinNonPos]
        | num s =>
          cases lmin with
          | none =>
            simp_all [process_deal_data, passes_strict_rules, defaultedPriceInput,
              subObjMissing, minNonNumeric, listMinNonPos]
          | some lv =>
            cases lv with
            | nonNum =>
              simp_all [process_deal_data, passes_strict_rules, defaultedPriceInput,
                subObjMissing, minNonNumeric, listMinNonPos]
            | num l =>
              have hor : l ≤ 0 ∨ s ≤ 0 := by
                rcases h with h | h
                · exact Or.inl (by
                    simpa [defaultedPriceInput, subObjMissing, minNonNumeric,
                      listMinNonPos] using h)
                · exact Or.inr (by simpa [saleMinNonPos] using h)
              refine ⟨?_, ?_⟩
              · rcases hor with hl | hs
                · have hguard : ¬(0 < l ∧ s < l) :=
                    fun hc => absurd hc.1 (not_lt.mpr hl)
                  simp [process_deal_data, hguard, passes_strict_rules]
                · by_cases hguard : 0 < l ∧ s < l
                  · have hlt : s < MIN_SALE_PRICE :=
                      lt_of_le_of_lt hs (by norm_num [MIN_SALE_PRICE])
                    cases hso : (so.getD true) <;>
                      simp [process_deal_data, hguard, passes_strict_rules, hso, hlt]
                  · simp [process_deal_data, hguard, passes_strict_rules]
              · intro hbad
                have hl : l ≤ 0 := by
                  simpa [defaultedPriceInput, subObjMissing, minNonNumeric,
                    listMinNonPos] using hbad
                have hguard : ¬(0 < l ∧ s < l) :=
                  fun hc => absurd hc.1 (not_lt.mpr hl)
                simp [process_deal_data, hguard]

/-- C2 witness: an item with a missing list-price sub-object takes the
default metrics and fails the filter. -/
theorem process_deal_data_bad_input_witness :
    (defaultedPriceInput
        { offerId := some "W", title := none, url := none,
          salePrice := PriceField.obj (some (MinVal.num 90)),
          listPrice := PriceField.missing, isSoldOut := some false } = true ∨
      saleMinNonPos
        { offerId := some "W", title := none, url := none,
          salePrice := PriceField.obj (some (MinVal.num 90)),
          listPrice := PriceField.missing, isSoldOut := some false } = true) ∧
    passes_strict_rules (process_deal_data
      { offerId := some "W", title := none, url := none,
        salePrice := PriceField.obj (some (MinVal.num 90)),
        listPrice := PriceField.missing, isSoldOut := some false } "Tools") = false :=
  ⟨Or.inl (by decide),
    (process_deal_data_bad_input
      { offerId := some "W", title := none, url := none,
        salePrice := PriceField.obj (some (MinVal.num 90)),
        listPrice := PriceField.missing, isSoldOut := some false } "Tools"
      (Or.inl (by decide))).1⟩

/-! ### Historical-low store (src/main.py lines 41-67) -/

/-- The status label written into a qualifying deal (src/main.py
lines 386-390).  priceDrop carries the previous stored low shown in the
label text. -/
inductive Status where
  | newLow
  | priceDrop (was : ℚ)
  | greatDeal
deriving DecidableEq, Repr

/-- A deal together with the status label assigned after filtering. -/
structure QDeal where
  deal : Deal
  status : Status
deriving DecidableEq, Repr

/-- The historical_lows_cache dictionary, embedded as an association list. -/
abbrev Store := List (String × ℚ)

/-- Python dict lookup with default None: historical_lows_cache.get(key). -/
def getStore : Store → String → Option ℚ
  | [], _ => none
  | (k, v) :: rest, key => if k = key then some v else getStore rest key

/-- Python dict assignment historical_lows_cache[key] = price: replace the
existing entry or append a new one. -/
def setStore : Store → String → ℚ → Store
  | [], key, price => [(key, price)]
  | (k, v) :: rest, key, price =>
    if k = key then (key, price) :: rest else (k, v) :: setStore rest key price

/-- The in-memory cache together with the persisted JSON file contents. -/
structure HistState where
  mem : Store
  file : Store
deriving DecidableEq, Repr

/-- Embedding of save_historical_low (src/main.py lines 59-67): mutate the
in-memory cache, then dump the whole cache to the file. -/
def save_historical_low (h : HistState) (offer_id : String) (price : ℚ) :
    HistState :=
  let mem := setStore h.mem offer_id price
  { mem := mem, file := mem }

/-- Embedding of load_historical_lows (src/main.py lines 44-56): replace the
in-memory cache with the file contents. -/
def load_historical_lows (h : HistState) : HistState :=
  { mem := h.file, file := h.file }

/-- The low-price check performed per qualifying deal (src/main.py
lines 380-390): a missing entry behaves as float('inf'), so any price is a
new low; a stored entry is overwritten exactly when the observed price is
strictly lower. -/
def observe_low (h : HistState) (offer_id : String) (price : ℚ) :
    HistState × Status :=
  match getStore h.mem offer_id with
  | none => (save_historical_low h offer_id price, Status.newLow)
  | some current_low =>
    if price < current_low then
      (save_historical_low h offer_id price, Status.priceDrop current_low)
    else (h, Status.greatDeal)

/-- The per-deal body of the refresh loop (src/main.py lines 377-391): a
deal that passes the strict rules gets the low-price check, a status label,
and is appended to the qualifying list in every branch; a failing deal is
dropped and the store untouched. -/
def tracker_step (h : HistState) (acc : List QDeal) (deal : Deal) :
    HistState × List QDeal :=
  if passes_strict_rules deal then
    let r := observe_low h deal.offer_id (deal.sale_price.getD 0)
    (r.1, acc ++ [{ deal := deal, status := r.2 }])
  else (h, acc)

/-- Sequential qualifying observations of one identifier, as performed by
consecutive iterations of the refresh loop for deals with that offer id. -/
def observe_lows (h : HistState) (offer_id : String) : List ℚ → HistState
  | [] => h
  | p :: ps => observe_lows (observe_low h offer_id p).1 offer_id ps

theorem getStore_setStore_self (s : Store) (key : String) (price : ℚ) :
    getStore (setStore s key price) key = some price := by
  induction s with
  | nil => simp [setStore, getStore]
  | cons kv rest ih =>
    obtain ⟨k, v⟩ := kv
    by_cases hk : k = key <;> simp [setStore, getStore, hk, ih]

theorem foldl_min_le_init (ps : List ℚ) : ∀ a : ℚ, ps.foldl min a ≤ a := by
  induction ps with
  | nil => intro a; simp
  | cons p rest ih =>
    intro a
    calc rest.foldl min (min a p) ≤ min a p := ih (min a p)
      _ ≤ a := min_le_left a p

/-- C3: after any sequence of qualifying observations for one identifier,
the stored low equals the minimum of the observed prices together with any
pre-existing stored value; consequently the stored value never increases,
and a single observation rewrites the store only when the observed price is
strictly below the stored value (or no value exists yet). -/
theorem observe_lows_min (h : HistState) (offer_id : String) (ps : List ℚ) :
    (getStore (observe_lows h offer_id ps).mem offer_id =
      match getStore h.mem offer_id, ps with
      | none, [] => none
      | none, p :: rest => some (rest.foldl min p)
      | some v, _ => some (ps.foldl min v)) ∧
    (∀ v w : ℚ, getStore h.mem offer_id = some v →
      getStore (observe_lows h offer_id ps).mem offer_id = some w → w ≤ v) ∧
    (∀ (p v : ℚ), getStore h.mem offer_id = some v → v ≤ p →
      observe_low h offer_id p = (h, Status.greatDeal)) := by
  have key : ∀ (ps : List ℚ) (h : HistState),
      getStore (observe_lows h offer_id ps).mem offer_id =
        match getStore h.mem offer_id, ps with
        | none, [] => none
        | none, p :: rest => some (rest.foldl min p)
        | some v, _ => some (ps.foldl min v) := by
    intro ps
    induction ps with
    | nil => intro h; cases hv : getStore h.mem offer_id <;> simp [observe_lows, hv]
    | cons p rest ih =>
      intro h
      cases hv : getStore h.mem offer_id with
      | none =>
        have hstep : (observe_low h offer_id p).1 =
            save_historical_low h offer_id p := by
          simp [observe_low, hv]
        have hnew : getStore (save_historical_low h offer_id p).mem offer_id =
            some p := getStore_setStore_self _ _ _
        simpa [observe_lows, hstep, hnew] using ih (save_historical_low h offer_id p)
      | some v =>
        by_cases hlt : p < v
        · have hstep : (observe_low h offer_id p).1 =
              save_historical_low h offer_id p := by
            simp [observe_low, hv, hlt]
          have hnew : getStore (save_historical_low h offer_id p).mem offer_id =
              some p := getStore_setStore_self _ _ _
          have hmin : min v p = p := min_eq_right (le_of_lt hlt)
          simpa [observe_lows, hstep, hnew, hmin]
            using ih (save_historical_low h offer_id p)
        · have hstep : (observe_low h offer_id p).1 = h := by
            simp [observe_low, hv, hlt]
          have hmin : min v p = v := min_eq_left (not_lt.mp hlt)
          simpa [observe_lows, hstep, hv, hmin] using ih h
  refine ⟨key ps h, ?_, ?_⟩
  · intro v w hv hw
    have := key ps h
    rw [hv] at this
    rw [hw] at this
    cases ps with
    | nil =>
      simp at this
      simp [this]
    | cons p rest =>
      simp at this
      rw [this]
      exact le_trans (foldl_min_le_init rest (min v p)) (min_le_left v p)
  · intro p v hv hle
    simp [observe_low, hv, not_lt.mpr hle]

/-- C3 witness: starting from a stored low of 100 for key A, observations
90, 95, 80 leave the store at the minimum 80. -/
theorem observe_lows_min_witness :
    getStore (observe_lows
        { mem := [("A", 100)], file := [("A", 100)] } "A" [90, 95, 80]).mem "A" =
      some 80 := by
  have h := (observe_lows_min
    { mem := [("A", 100)], file := [("A", 100)] } "A" [90, 95, 80]).1
  rw [h]
  with_unfolding_all decide

/-! ### C4: equal-price ties and unconditional inclusion -/

/-- C4: a filter-passing deal whose sale price equals the stored low leaves
the store (memory and file) unchanged and is appended with status greatDeal;
more generally the store is untouched whenever the stored low is at most the
observed price (updates need strict inequality), and every filter-passing
deal is appended to the result list whatever its status. -/
theorem tracker_step_equal_price :
    (∀ (h : HistState) (acc : List QDeal) (deal : Deal) (p : ℚ),
      passes_strict_rules deal = true → deal.sale_price = some p →
      getStore h.mem deal.offer_id = some p →
      tracker_step h acc deal =
        (h, acc ++ [{ deal := deal, status := Status.greatDeal }])) ∧
    (∀ (h : HistState) (acc : List QDeal) (deal : Deal) (p low : ℚ),
      passes_strict_rules deal = true → deal.sale_price = some p →
      getStore h.mem deal.offer_id = some low → low ≤ p →
      (tracker_step h acc deal).1 = h) ∧
    (∀ (h : HistState) (acc : List QDeal) (deal : Deal),
      passes_strict_rules deal = true →
      ∃ st : Status,
        (tracker_step h acc deal).2 = acc ++ [{ deal := deal, status := st }]) := by
  refine ⟨?_, ?_, ?_⟩
  · intro h acc deal p hpass hsp hlow
    simp [tracker_step, hpass, observe_low, hsp, hlow]
  · intro h acc deal p low hpass hsp hlow hle
    simp [tracker_step, hpass, observe_low, hsp, hlow, not_lt.mpr hle]
  · intro h acc deal hpass
    cases hv : getStore h.mem deal.offer_id with
    | none => exact ⟨Status.newLow, by simp [tracker_step, hpass, observe_low, hv]⟩
    | some low =>
      by_cases hlt : deal.sale_price.getD 0 < low
      · exact ⟨Status.priceDrop low,
          by simp [tracker_step, hpass, observe_low, hv, hlt]⟩
      · exact ⟨Status.greatDeal,
          by simp [tracker_step, hpass, observe_low, hv, hlt]⟩

/-- C4 witness: a concrete filter-passing deal observed at exactly the
stored low of 80 is labeled greatDeal and the store stays intact. -/
theorem tracker_step_equal_price_witness :
    passes_strict_rules
      { offer_id := "A", title := "T", url := "U", feed_name := "All",
        sale_price := some 80, list_price := some 200,
        discount_percent := 60, savings_amount := 120,
        is_sold_out := false } = true ∧
    tracker_step { mem := [("A", 80)], file := [("A", 80)] } []
      { offer_id := "A", title := "T", url := "U", feed_name := "All",
        sale_price := some 80, list_price := some 200,
        discount_percent := 60, savings_amount := 120,
        is_sold_out := false } =
      ({ mem := [("A", 80)], file := [("A", 80)] },
        [{ deal := { offer_id := "A", title := "T", url := "U",
                     feed_name := "All", sale_price := some 80,
                     list_price := some 200, discount_percent := 60,
                     savings_amount := 120, is_sold_out := false },
           status := Status.greatDeal }]) :=
  ⟨by decide,
    tracker_step_equal_price.1 { mem := [("A", 80)], file := [("A", 80)] } []
      { offer_id := "A", title := "T", url := "U", feed_name := "All",
        sale_price := some 80, list_price := some 200,
        discount_percent := 60, savings_amount := 120,
        is_sold_out := false } 80 (by decide) (by decide) (by decide)⟩

/-! ### Refresh orchestrator (src/main.py lines 352-401) -/

/-- Process every raw item of one feed in order, threading the store and the
accumulated qualifying list (the inner loop of lines 374-391). -/
def process_feed (h : HistState) (acc : List QDeal) (feed_name : String) :
    List RawDeal → HistState × List QDeal
  | [] => (h, acc)
  | raw :: rest =>
    let p := tracker_step h acc (process_deal_data raw feed_name)
    process_feed p.1 p.2 feed_name rest

/-- What one iteration of the feed loop yields: either the raw items the
fetch returned (possibly empty), or an unexpected exception raised while
fetching or processing this feed, which propagates out of the cycle. -/
inductive FeedOutcome where
  | items (raws : List RawDeal)
  | raiseErr
deriving DecidableEq, Repr

/-- The feed loop of lines 370-393.  An exception aborts the cycle at once;
the historical-low saves already flushed stay in place, which the error
payload records. -/
def run_cycle (h : HistState) (acc : List QDeal) :
    List (String × FeedOutcome) → Except HistState (HistState × List QDeal)
  | [] => Except.ok (h, acc)
  | (feed_name, FeedOutcome.items raws) :: rest =>
    let p := process_feed h acc feed_name raws
    run_cycle p.1 p.2 rest
  | (_, FeedOutcome.raiseErr) :: _ => Except.error h

/-- Stable insertion (descending by discount percent) of one deal into an
already sorted list: it goes in front of the first entry whose discount does
not exceed its own. -/
def insert_by_discount (d : QDeal) : List QDeal → List QDeal
  | [] => [d]
  | e :: rest =>
    if e.deal.discount_percent ≤ d.deal.discount_percent then d :: e :: rest
    else e :: insert_by_discount d rest

/-- Embedding of list.sort(key=discount_percent, reverse=True) on line 395:
a stable descending sort by discount percent. -/
def sort_by_discount : List QDeal → List QDeal
  | [] => []
  | d :: rest => insert_by_discount d (sort_by_discount rest)

/-- The result-cache fields of the WootBotClient instance (src/main.py
lines 283-284). -/
structure ClientState where
  all_qualified_deals : List QDeal
  last_fetch_time : ℚ
deriving DecidableEq, Repr

def MAX_CACHE_AGE_SECONDS : ℚ := 300

/-- Number of feed fetches a cycle issues: one per feed reached, counting
the feed whose fetch or processing raises. -/
def feeds_attempted : List (String × FeedOutcome) → ℕ
  | [] => 0
  | (_, FeedOutcome.items _) :: rest => 1 + feeds_attempted rest
  | (_, FeedOutcome.raiseErr) :: _ => 1

/-- Outcome of one call to fetch_and_filter_deals_internal: the client cache
fields afterwards, the historical-low state afterwards, the list the call
returns (on the exception path nothing is returned to the caller, and the
cache it would read is recorded), and how many feed fetches were issued. -/
structure RefreshResult where
  client : ClientState
  hist : HistState
  returned : List QDeal
  fetch_count : ℕ
deriving DecidableEq, Repr

/-- Embedding of fetch_and_filter_deals_internal (src/main.py lines
352-401).  now is the clock value read by the freshness check on line 360,
endTime the one stored on line 399 after the cycle.  The cache fields are
assigned only after the whole cycle succeeds, so an exception leaves them
exactly as they were, while the historical-low saves already made persist. -/
def fetch_and_filter_deals_internal (st : ClientState) (h : HistState)
    (api_feeds : List (String × FeedOutcome)) (force_refresh : Bool)
    (now endTime : ℚ) : RefreshResult :=
  if ¬force_refresh ∧ now - st.last_fetch_time < MAX_CACHE_AGE_SECONDS then
    { client := st, hist := h, returned := st.all_qualified_deals,
      fetch_count := 0 }
  else
    match run_cycle (load_historical_lows h) [] api_feeds with
    | Except.ok (h1, deals) =>
      let sorted := sort_by_discount deals
      { client := { all_qualified_deals := sorted, last_fetch_time := endTime },
        hist := h1, returned := sorted,
        fetch_count := feeds_attempted api_feeds }
    | Except.error h1 =>
      { client := st, hist := h1, returned := st.all_qualified_deals,
        fetch_count := feeds_attempted api_feeds }

/-- C5: a non-forced call whose cache age is strictly below the 300-second
window issues zero fetches, leaves every piece of state unchanged and
returns the cached list; and any call that issues a fetch is forced or has
cache age at least the window. -/
theorem fetch_cache_hit (st : ClientState) (h : HistState)
    (api_feeds : List (String × FeedOutcome)) (force_refresh : Bool)
    (now endTime : ℚ) (hf : force_refresh = false)
    (hfresh : now - st.last_fetch_time < MAX_CACHE_AGE_SECONDS) :
    fetch_and_filter_deals_internal st h api_feeds force_refresh now endTime =
      { client := st, hist := h, returned := st.all_qualified_deals,
        fetch_count := 0 } ∧
    (∀ (st' : ClientState) (h' : HistState)
      (feeds' : List (String × FeedOutcome)) (f' : Bool) (now' endT' : ℚ),
      (fetch_and_filter_deals_internal st' h' feeds' f' now' endT').fetch_count ≠ 0 →
      f' = true ∨ MAX_CACHE_AGE_SECONDS ≤ now' - st'.last_fetch_time) := by
  constructor
  · simp [fetch_and_filter_deals_internal, hf, hfresh]
  · intro st' h' feeds' f' now' endT' hcount
    by_cases hhit : ¬f' = true ∧ now' - st'.last_fetch_time < MAX_CACHE_AGE_SECONDS
    · exfalso
      apply hcount
      simp [fetch_and_filter_deals_internal, hhit.1, hhit.2]
    · push_neg at hhit
      by_cases hf' : f' = true
      · exact Or.inl hf'
      · exact Or.inr (hhit (by simpa using hf'))

/-- C5 witness: with a refresh finished at time 0 and a read at time 100,
the cached list comes back untouched with zero fetches. -/
theorem fetch_cache_hit_witness :
    (false = false ∧ ((100 : ℚ) - 0 < MAX_CACHE_AGE_SECONDS)) ∧
    fetch_and_filter_deals_internal
        { all_qualified_deals := [], last_fetch_time := 0 }
        { mem := [], file := [] } [("All", FeedOutcome.items [])] false 100 100 =
      { client := { all_qualified_deals := [], last_fetch_time := 0 },
        hist := { mem := [], file := [] }, returned := [], fetch_count := 0 } :=
  ⟨⟨rfl, by norm_num [MAX_CACHE_AGE_SECONDS]⟩,
    (fetch_cache_hit { all_qualified_deals := [], last_fetch_time := 0 }
      { mem := [], file := [] } [("All", FeedOutcome.items [])] false 100 100
      rfl (by norm_num [MAX_CACHE_AGE_SECONDS])).1⟩

/-! ### C7 and C10: aborted cycles -/

/-- True when no feed in the list raises. -/
def feeds_ok : List (String × FeedOutcome) → Bool
  | [] => true
  | (_, FeedOutcome.items _) :: rest => feeds_ok rest
  | (_, FeedOutcome.raiseErr) :: _ => false

/-- The feed loop restricted to its non-raising steps; on an error-free
prefix it agrees with run_cycle. -/
def run_feeds (h : HistState) (acc : List QDeal) :
    List (String × FeedOutcome) → HistState × List QDeal
  | [] => (h, acc)
  | (feed_name, FeedOutcome.items raws) :: rest =>
    let p := process_feed h acc feed_name raws
    run_feeds p.1 p.2 rest
  | (_, FeedOutcome.raiseErr) :: rest => run_feeds h acc rest

theorem run_cycle_err_exists (h : HistState) (acc : List QDeal)
    (pre post : List (String × FeedOutcome)) (name : String) :
    ∃ h1, run_cycle h acc (pre ++ (name, FeedOutcome.raiseErr) :: post) =
      Except.error h1 := by
  induction pre generalizing h acc with
  | nil => exact ⟨h, rfl⟩
  | cons entry rest ih =>
    obtain ⟨n, outcome⟩ := entry
    cases outcome with
    | items raws =>
      simpa [run_cycle] using
        ih (process_feed h acc n raws).1 (process_feed h acc n raws).2
    | raiseErr => exact ⟨h, rfl⟩

theorem run_cycle_err_prefix (h : HistState) (acc : List QDeal)
    (pre post : List (String × FeedOutcome)) (name : String)
    (hok : feeds_ok pre = true) :
    run_cycle h acc (pre ++ (name, FeedOutcome.raiseErr) :: post) =
      Except.error (run_feeds h acc pre).1 := by
  induction pre generalizing h acc with
  | nil => rfl
  | cons entry rest ih =>
    obtain ⟨n, outcome⟩ := entry
    cases outcome with
    | items raws =>
      simpa [run_cycle, run_feeds] using
        ih (process_feed h acc n raws).1 (process_feed h acc n raws).2
          (by simpa [feeds_ok] using hok)
    | raiseErr => simp [feeds_ok] at hok

theorem tracker_step_file_eq (h : HistState) (acc : List QDeal) (deal : Deal)
    (hfe : h.file = h.mem) :
    (tracker_step h acc deal).1.file = (tracker_step h acc deal).1.mem := by
  by_cases hpass : passes_strict_rules deal = true
  · cases hv : getStore h.mem deal.offer_id with
    | none => simp [tracker_step, hpass, observe_low, hv, save_historical_low]
    | some low =>
      by_cases hlt : deal.sale_price.getD 0 < low <;>
        simp [tracker_step, hpass, observe_low, hv, hlt, save_historical_low, hfe]
  · simp [tracker_step, hpass, hfe]

theorem process_feed_file_eq (feed_name : String) (raws : List RawDeal) :
    ∀ (h : HistState) (acc : List QDeal), h.file = h.mem →
      (process_feed h acc feed_name raws).1.file =
        (process_feed h acc feed_name raws).1.mem := by
  induction raws with
  | nil => intro h acc hfe; simpa [process_feed] using hfe
  | cons raw rest ih =>
    intro h acc hfe
    simpa [process_feed] using
      ih (tracker_step h acc (process_deal_data raw feed_name)).1
        (tracker_step h acc (process_deal_data raw feed_name)).2
        (tracker_step_file_eq h acc (process_deal_data raw feed_name) hfe)

theorem run_feeds_file_eq (feeds : List (String × FeedOutcome)) :
    ∀ (h : HistState) (acc : List QDeal), h.file = h.mem →
      (run_feeds h acc feeds).1.file = (run_feeds h acc feeds).1.mem := by
  induction feeds with
  | nil => intro h acc hfe; simpa [run_feeds] using hfe
  | cons entry rest ih =>
    intro h acc hfe
    obtain ⟨n, outcome⟩ := entry
    cases outcome with
    | items raws =>
      simpa [run_feeds] using
        ih (process_feed h acc n raws).1 (process_feed h acc n raws).2
          (process_feed_file_eq n raws h acc hfe)
    | raiseErr => simpa [run_feeds] using ih h acc hfe

/-- C7 counterexample: a forced cycle fails at time 10 while the cache from
time 0 is still fresh; the cache and timestamp are retained (that much
holds), but the subsequent request at time 20 issues zero fetches and is
served the old cache instead of retrying a full refresh. -/
theorem refresh_error_no_retry_ctrex :
    (fetch_and_filter_deals_internal
        { all_qualified_deals :=
            [{ deal := { offer_id := "A", title := "T", url := "U",
                         feed_name := "All", sale_price := some 80,
                         list_price := some 200, discount_percent := 60,
                         savings_amount := 120, is_sold_out := false },
               status := Status.greatDeal }], last_fetch_time := 0 }
        { mem := [], file := [] }
        [("All", FeedOutcome.raiseErr)] true 10 10).client =
      { all_qualified_deals :=
          [{ deal := { offer_id := "A", title := "T", url := "U",
                       feed_name := "All", sale_price := some 80,
                       list_price := some 200, discount_percent := 60,
                       savings_amount := 120, is_sold_out := false },
             status := Status.greatDeal }], last_fetch_time := 0 } ∧
    (fetch_and_filter_deals_internal
        { all_qualified_deals :=
            [{ deal := { offer_id := "A", title := "T", url := "U",
                         feed_name := "All", sale_price := some 80,
                         list_price := some 200, discount_percent := 60,
                         savings_amount := 120, is_sold_out := false },
               status := Status.greatDeal }], last_fetch_time := 0 }
        { mem := [], file := [] }
        [("All", FeedOutcome.items
            [{ offerId := some "A", title := some "T", url := some "U",
               salePrice := PriceField.obj (some (MinVal.num 80)),
               listPrice := PriceField.obj (some (MinVal.num 200)),
               isSoldOut := some false }])] false 20 20).fetch_count = 0 := by
  with_unfolding_all decide

/-- C7 amended: when a cycle (necessarily entered forced or with a stale
cache) raises mid-cycle, the published cache and its timestamp are retained
exactly and no partial result set is published; because the timestamp is
retained, a subsequent non-forced request performs a full refresh exactly
when the retained timestamp is stale (age at least the 300-second window) —
after a forced failure on a still-fresh cache the next non-forced request is
served from the cache instead of retrying. -/
theorem refresh_error_keeps_cache (st : ClientState) (h : HistState)
    (pre post : List (String × FeedOutcome)) (name : String)
    (force_refresh : Bool) (now endTime : ℚ)
    (hrun : force_refresh = true ∨
      MAX_CACHE_AGE_SECONDS ≤ now - st.last_fetch_time) :
    (fetch_and_filter_deals_internal st h
        (pre ++ (name, FeedOutcome.raiseErr) :: post)
        force_refresh now endTime).client = st ∧
    (∀ (h₂ : HistState) (feeds₂ : List (String × FeedOutcome)) (now₂ endT₂ : ℚ),
      MAX_CACHE_AGE_SECONDS ≤ now₂ - st.last_fetch_time →
      (fetch_and_filter_deals_internal
          (fetch_and_filter_deals_internal st h
            (pre ++ (name, FeedOutcome.raiseErr) :: post)
            force_refresh now endTime).client
          h₂ feeds₂ false now₂ endT₂).fetch_count = feeds_attempted feeds₂) := by
  have hmiss : ¬(force_refresh = false ∧
      now - st.last_fetch_time < MAX_CACHE_AGE_SECONDS) := by
    rcases hrun with hf | hstale
    · rintro ⟨hc, -⟩; rw [hf] at hc; exact Bool.noConfusion hc
    · intro hc; exact absurd hc.2 (not_lt.mpr hstale)
  obtain ⟨h1, heq⟩ := run_cycle_err_exists (load_historical_lows h) [] pre post name
  have hclient : (fetch_and_filter_deals_internal st h
      (pre ++ (name, FeedOutcome.raiseErr) :: post)
      force_refresh now endTime).client = st := by
    simp [fetch_and_filter_deals_internal, hmiss, heq]
  refine ⟨hclient, ?_⟩
  intro h₂ feeds₂ now₂ endT₂ hstale₂
  rw [hclient]
  have hnlt₂ : ¬(now₂ - st.last_fetch_time < MAX_CACHE_AGE_SECONDS) :=
    not_lt.mpr hstale₂
  cases hcase : run_cycle (load_historical_lows h₂) [] feeds₂ with
  | ok p => simp [fetch_and_filter_deals_internal, hnlt₂, hcase]
  | error h3 => simp [fetch_and_filter_deals_internal, hnlt₂, hcase]

/-- C7 witness: a natural stale-triggered cycle that fails at time 400
keeps the cache of time 0, and the request at time 800 fetches again. -/
theorem refresh_error_keeps_cache_witness :
    ((true : Bool) = true ∨ MAX_CACHE_AGE_SECONDS ≤ (400 : ℚ) - 0) ∧
    (fetch_and_filter_deals_internal
        { all_qualified_deals := [], last_fetch_time := 0 }
        { mem := [], file := [] }
        ([] ++ ("All", FeedOutcome.raiseErr) :: []) true 400 400).client =
      { all_qualified_deals := [], last_fetch_time := 0 } :=
  ⟨Or.inl rfl,
    (refresh_error_keeps_cache
      { all_qualified_deals := [], last_fetch_time := 0 }
      { mem := [], file := [] } [] [] "All" true 400 400 (Or.inl rfl)).1⟩

/-- C10: when a cycle aborts on an unexpected error after an error-free
prefix of feeds, the historical-low state afterwards is exactly the state
the prefix produced — every save already flushed survives, in memory and in
the file — while the client result-cache fields alone revert to their
pre-cycle values. -/
theorem refresh_error_keeps_saves (st : ClientState) (h : HistState)
    (pre post : List (String × FeedOutcome)) (name : String)
    (force_refresh : Bool) (now endTime : ℚ)
    (hok : feeds_ok pre = true)
    (hrun : force_refresh = true ∨
      MAX_CACHE_AGE_SECONDS ≤ now - st.last_fetch_time) :
    (fetch_and_filter_deals_internal st h
        (pre ++ (name, FeedOutcome.raiseErr) :: post)
        force_refresh now endTime).hist =
      (run_feeds (load_historical_lows h) [] pre).1 ∧
    (∀ (k : String) (v : ℚ),
      getStore (run_feeds (load_historical_lows h) [] pre).1.mem k = some v →
      getStore (fetch_and_filter_deals_internal st h
          (pre ++ (name, FeedOutcome.raiseErr) :: post)
          force_refresh now endTime).hist.mem k = some v ∧
      getStore (fetch_and_filter_deals_internal st h
          (pre ++ (name, FeedOutcome.raiseErr) :: post)
          force_refresh now endTime).hist.file k = some v) ∧
    (fetch_and_filter_deals_internal st h
        (pre ++ (name, FeedOutcome.raiseErr) :: post)
        force_refresh now endTime).client = st := by
  have hmiss : ¬(force_refresh = false ∧
      now - st.last_fetch_time < MAX_CACHE_AGE_SECONDS) := by
    rcases hrun with hf | hstale
    · rintro ⟨hc, -⟩; rw [hf] at hc; exact Bool.noConfusion hc
    · intro hc; exact absurd hc.2 (not_lt.mpr hstale)
  have heq := run_cycle_err_prefix (load_historical_lows h) [] pre post name hok
  have hhist : (fetch_and_filter_deals_internal st h
      (pre ++ (name, FeedOutcome.raiseErr) :: post)
      force_refresh now endTime).hist =
        (run_feeds (load_historical_lows h) [] pre).1 := by
    simp [fetch_and_filter_deals_internal, hmiss, heq]
  have hfe : (run_feeds (load_historical_lows h) [] pre).1.file =
      (run_feeds (load_historical_lows h) [] pre).1.mem :=
    run_feeds_file_eq pre (load_historical_lows h) [] rfl
  refine ⟨hhist, ?_, ?_⟩
  · intro k v hkv
    rw [hhist, hfe]
    exact ⟨hkv, hkv⟩
  · simp [fetch_and_filter_deals_internal, hmiss, heq]

/-- C10 witness: a qualifying item saved during the first feed survives the
error raised by the second feed, in memory and in the file. -/
theorem refresh_error_keeps_saves_witness :
    feeds_ok [("All", FeedOutcome.items
        [{ offerId := some "A", title := some "T", url := some "U",
           salePrice := PriceField.obj (some (MinVal.num 80)),
           listPrice := PriceField.obj (some (MinVal.num 200)),
           isSoldOut := some false }])] = true ∧
    (fetch_and_filter_deals_internal
        { all_qualified_deals := [], last_fetch_time := 0 }
        { mem := [], file := [] }
        ([("All", FeedOutcome.items
            [{ offerId := some "A", title := some "T", url := some "U",
               salePrice := PriceField.obj (some (MinVal.num 80)),
               listPrice := PriceField.obj (some (MinVal.num 200)),
               isSoldOut := some false }])] ++
          ("Clearance", FeedOutcome.raiseErr) :: []) true 400 400).hist =
      (run_feeds (load_historical_lows { mem := [], file := [] }) []
        [("All", FeedOutcome.items
          [{ offerId := some "A", title := some "T", url := some "U",
             salePrice := PriceField.obj (some (MinVal.num 80)),
             listPrice := PriceField.obj (some (MinVal.num 200)),
             isSoldOut := some false }])]).1 :=
  ⟨rfl,
    (refresh_error_keeps_saves
      { all_qualified_deals := [], last_fetch_time := 0 }
      { mem := [], file := [] }
      [("All", FeedOutcome.items
        [{ offerId := some "A", title := some "T", url := some "U",
           salePrice := PriceField.obj (some (MinVal.num 80)),
           listPrice := PriceField.obj (some (MinVal.num 200)),
           isSoldOut := some false }])] [] "Clearance" true 400 400
      rfl (Or.inl rfl)).1⟩

/-! ### Feed fetcher retry loop (src/main.py lines 98-119) -/

/-- What one HTTP attempt observes: a 200 with items, a 429 rate limit, any
other status (raise_for_status, caught as a RequestException, breaking the
loop), or a timeout (retry immediately). -/
inductive HttpResp where
  | ok (items : List RawDeal)
  | rate429
  | otherStatus
  | timeout
deriving DecidableEq, Repr

/-- Lower bound of the jitter draw random.uniform(0.5, 1) on line 109. -/
def uniform_lo : ℚ := 1 / 2

/-- Upper bound of the jitter draw random.uniform(0.5, 1) on line 109. -/
def uniform_hi : ℚ := 1

/-- Trace of one fetch_feed_data call: the items returned, every sleep
performed as (attempt index, delay), and how many HTTP attempts were made. -/
structure FetchTrace where
  items : List RawDeal
  waits : List (ℕ × ℚ)
  attempts : ℕ
deriving DecidableEq, Repr

/-- The body of the for-attempt-in-range(3) loop: fuel counts the remaining
iterations, attempt the current index.  On 429 the code sleeps
2 ** attempt + jitter before the next attempt; jitter is the value the
uniform draw produced for that attempt. -/
def fetch_loop (resp : ℕ → HttpResp) (jitter : ℕ → ℚ) :
    ℕ → ℕ → FetchTrace
  | 0, _ => { items := [], waits := [], attempts := 0 }
  | fuel + 1, attempt =>
    match resp attempt with
    | HttpResp.ok items => { items := items, waits := [], attempts := 1 }
    | HttpResp.rate429 =>
      let r := fetch_loop resp jitter fuel (attempt + 1)
      { items := r.items,
        waits := (attempt, 2 ^ attempt + jitter attempt) :: r.waits,
        attempts := r.attempts + 1 }
    | HttpResp.timeout =>
      let r := fetch_loop resp jitter fuel (attempt + 1)
      { items := r.items, waits := r.waits, attempts := r.attempts + 1 }
    | HttpResp.otherStatus => { items := [], waits := [], attempts := 1 }

/-- Embedding of fetch_feed_data (src/main.py lines 98-119): up to 3
attempts starting at attempt index 0. -/
def fetch_feed_data (resp : ℕ → HttpResp) (jitter : ℕ → ℚ) : FetchTrace :=
  fetch_loop resp jitter 3 0

/-- C8 counterexample: the claim puts the jitter draw in the interval
(0.5, 1.5), which would make a first-attempt backoff delay of
2 ** 0 + 1.25 = 2.25 possible; no jitter value the source's
random.uniform(0.5, 1) call can return produces that delay. -/
theorem fetch_backoff_jitter_ctrex :
    ¬ ∃ j : ℚ, uniform_lo ≤ j ∧ j ≤ uniform_hi ∧
      (fetch_feed_data (fun _ => HttpResp.rate429) (fun _ => j)).waits.head? =
        some (0, 2 ^ 0 + 5 / 4) := by
  rintro ⟨j, hlo, hhi, hw⟩
  simp only [fetch_feed_data, fetch_loop, List.head?_cons, Option.some.injEq,
    Prod.mk.injEq, true_and] at hw
  have hj : j = 5 / 4 := by linarith
  rw [hj] at hhi
  norm_num [uniform_hi] at hhi

theorem fetch_loop_waits_spec (resp : ℕ → HttpResp) (jitter : ℕ → ℚ) :
    ∀ (fuel attempt : ℕ),
      (fetch_loop resp jitter fuel attempt).attempts ≤ fuel ∧
      ∀ w ∈ (fetch_loop resp jitter fuel attempt).waits,
        w.2 = 2 ^ w.1 + jitter w.1 := by
  intro fuel
  induction fuel with
  | zero => intro attempt; simp [fetch_loop]
  | succ n ih =>
    intro attempt
    cases hr : resp attempt with
    | ok items => simp [fetch_loop, hr]
    | rate429 =>
      refine ⟨?_, ?_⟩
      · simpa [fetch_loop, hr, Nat.succ_le_succ_iff] using (ih (attempt + 1)).1
      · intro w hw
        simp only [fetch_loop, hr, List.mem_cons] at hw
        rcases hw with hw | hw
        · simp [hw]
        · exact (ih (attempt + 1)).2 w hw
    | timeout =>
      refine ⟨?_, ?_⟩
      · simpa [fetch_loop, hr, Nat.succ_le_succ_iff] using (ih (attempt + 1)).1
      · intro w hw
        simp only [fetch_loop, hr] at hw
        exact (ih (attempt + 1)).2 w hw
    | otherStatus => simp [fetch_loop, hr]

/-- C8 amended: the request is attempted at most 3 times, and every backoff
sleep performed after a 429 on attempt i lasts 2 ** i plus the jitter drawn
from random.uniform(0.5, 1), so it always lies in [2 ** i + 0.5, 2 ** i + 1]
(not in the wider band up to 2 ** i + 1.5). -/
theorem fetch_backoff_bounds (resp : ℕ → HttpResp) (jitter : ℕ → ℚ)
    (hj : ∀ i, uniform_lo ≤ jitter i ∧ jitter i ≤ uniform_hi) :
    (fetch_feed_data resp jitter).attempts ≤ 3 ∧
    ∀ w ∈ (fetch_feed_data resp jitter).waits,
      w.2 = 2 ^ w.1 + jitter w.1 ∧
      2 ^ w.1 + uniform_lo ≤ w.2 ∧ w.2 ≤ 2 ^ w.1 + uniform_hi := by
  refine ⟨(fetch_loop_waits_spec resp jitter 3 0).1, ?_⟩
  intro w hw
  have heqn := (fetch_loop_waits_spec resp jitter 3 0).2 w hw
  refine ⟨heqn, ?_, ?_⟩
  · rw [heqn]; exact add_le_add_left (hj w.1).1 _
  · rw [heqn]; exact add_le_add_left (hj w.1).2 _

/-- C8 witness: two 429 responses then a 200 with constant jitter 0.75 give
3 attempts and sleeps of 2 ** 0 + 0.75 and 2 ** 1 + 0.75, both in bounds. -/
theorem fetch_backoff_bounds_witness :
    (∀ i : ℕ, uniform_lo ≤ (fun _ : ℕ => (3 : ℚ) / 4) i ∧
      (fun _ : ℕ => (3 : ℚ) / 4) i ≤ uniform_hi) ∧
    (fetch_feed_data
        (fun i => if i < 2 then HttpResp.rate429 else HttpResp.ok [])
        (fun _ => (3 : ℚ) / 4)).attempts ≤ 3 ∧
    ∀ w ∈ (fetch_feed_data
        (fun i => if i < 2 then HttpResp.rate429 else HttpResp.ok [])
        (fun _ => (3 : ℚ) / 4)).waits,
      w.2 = 2 ^ w.1 + (fun _ : ℕ => (3 : ℚ) / 4) w.1 ∧
      2 ^ w.1 + uniform_lo ≤ w.2 ∧ w.2 ≤ 2 ^ w.1 + uniform_hi := by
  have hj : ∀ i : ℕ, uniform_lo ≤ (fun _ : ℕ => (3 : ℚ) / 4) i ∧
      (fun _ : ℕ => (3 : ℚ) / 4) i ≤ uniform_hi := by
    intro i; constructor <;> norm_num [uniform_lo, uniform_hi]
  exact ⟨hj, fetch_backoff_bounds
    (fun i => if i < 2 then HttpResp.rate429 else HttpResp.ok [])
    (fun _ => (3 : ℚ) / 4) hj⟩

/-! ### Pagination view (src/main.py lines 220-269) -/

/-- The pagination state of a DealsView instance; Python ints are embedded
as ℤ so that total_pages - 1 is the integer -1 when total_pages = 0. -/
structure DealsView where
  deals : List QDeal
  title : String
  current_page : ℤ
  total_pages : ℤ
deriving DecidableEq, Repr

/-- Embedding of DealsView.__init__ (src/main.py lines 223-230):
current_page starts at 0 and total_pages is the ceiling division
(len + page_size - 1) // page_size. -/
def DealsView.init (deals : List QDeal) (title : String) : DealsView :=
  { deals := deals, title := title, current_page := 0,
    total_pages :=
      ((deals.length + MAX_DEALS_PER_PAGE - 1) / MAX_DEALS_PER_PAGE : ℕ) }

/-- Embedding of next_button (src/main.py lines 264-269): increment only
strictly below total_pages - 1. -/
def DealsView.next_button (v : DealsView) : DealsView :=
  if v.current_page < v.total_pages - 1 then
    { v with current_page := v.current_page + 1 }
  else v

/-- Embedding of previous_button (src/main.py lines 257-262): decrement
only strictly above 0. -/
def DealsView.previous_button (v : DealsView) : DealsView :=
  if 0 < v.current_page then { v with current_page := v.current_page - 1 }
  else v

/-- The page-cursor invariant the claim states. -/
def pageInv (v : DealsView) : Prop :=
  0 ≤ v.current_page ∧ v.current_page ≤ v.total_pages - 1

/-- C9 counterexample: a view over an empty list has total_pages = 0 and
current_page = 0 immediately after construction, so the claimed invariant
current_page <= total_pages - 1 is already violated there. -/
theorem deals_view_empty_ctrex :
    (DealsView.init [] "Empty").total_pages = 0 ∧
    (DealsView.init [] "Empty").current_page = 0 ∧
    ¬ pageInv (DealsView.init [] "Empty") := by
  refine ⟨rfl, rfl, ?_⟩
  intro hinv
  have h2 := hinv.2
  simp only [DealsView.init, MAX_DEALS_PER_PAGE, List.length_nil] at h2
  omega

theorem ceil_div_ten (n : ℕ) :
    ⌈(n : ℚ) / 10⌉ = (((n + 9) / 10 : ℕ) : ℤ) := by
  obtain ⟨m, hm⟩ : ∃ m, (n + 9) / 10 = m := ⟨_, rfl⟩
  have h1 : n ≤ 10 * m := by omega
  have h2 : 10 * m ≤ n + 9 := by omega
  rw [hm, Int.ceil_eq_iff]
  have h1q : (n : ℚ) ≤ 10 * (m : ℚ) := by exact_mod_cast h1
  have h2q : 10 * (m : ℚ) ≤ (n : ℚ) + 9 := by exact_mod_cast h2
  constructor
  · rw [lt_div_iff₀ (by norm_num : (0 : ℚ) < 10)]
    push_cast
    linarith
  · rw [div_le_iff₀ (by norm_num : (0 : ℚ) < 10)]
    push_cast
    linarith

/-- C9 amended: for a view bound to a non-empty list, total_pages equals
the ceiling of length / 10 and the invariant 0 <= current_page <=
total_pages - 1 holds at construction; for every view satisfying the
invariant both transitions preserve it and clamp: next at the last page and
previous at page 0 are no-ops (a view over an empty list instead starts at
current_page = 0 = total_pages, outside the stated invariant). -/
theorem deals_view_pagination (deals : List QDeal) (title : String)
    (hne : deals ≠ []) :
    (DealsView.init deals title).total_pages =
      ⌈(deals.length : ℚ) / (MAX_DEALS_PER_PAGE : ℚ)⌉ ∧
    pageInv (DealsView.init deals title) ∧
    (∀ v : DealsView, pageInv v →
      pageInv v.next_button ∧ pageInv v.previous_button) ∧
    (∀ v : DealsView, v.current_page = v.total_pages - 1 →
      v.next_button = v) ∧
    (∀ v : DealsView, v.current_page = 0 → v.previous_button = v) := by
  have hlen : 1 ≤ deals.length := by
    cases deals with
    | nil => exact absurd rfl hne
    | cons d rest => exact Nat.succ_le_succ (Nat.zero_le _)
  refine ⟨?_, ?_, ?_, ?_, ?_⟩
  · show (((deals.length + MAX_DEALS_PER_PAGE - 1) / MAX_DEALS_PER_PAGE : ℕ) : ℤ) =
      ⌈(deals.length : ℚ) / (MAX_DEALS_PER_PAGE : ℚ)⌉
    have hnum : deals.length + MAX_DEALS_PER_PAGE - 1 = deals.length + 9 := by
      simp [MAX_DEALS_PER_PAGE]
    rw [hnum]
    simpa [MAX_DEALS_PER_PAGE] using (ceil_div_ten deals.length).symm
  · have h10 : 1 ≤ (deals.length + MAX_DEALS_PER_PAGE - 1) / MAX_DEALS_PER_PAGE := by
      simp only [MAX_DEALS_PER_PAGE]
      omega
    simp only [pageInv, DealsView.init]
    omega
  · intro v hv
    obtain ⟨h0, h1⟩ := hv
    constructor
    · by_cases hlt : v.current_page < v.total_pages - 1
      · simp only [DealsView.next_button, if_pos hlt, pageInv]
        constructor <;> omega
      · simpa [DealsView.next_button, if_neg hlt, pageInv] using ⟨h0, h1⟩
    · by_cases hgt : 0 < v.current_page
      · simp only [DealsView.previous_button, if_pos hgt, pageInv]
        constructor <;> omega
      · simpa [DealsView.previous_button, if_neg hgt, pageInv] using ⟨h0, h1⟩
  · intro v hv
    have : ¬(v.current_page < v.total_pages - 1) := by omega
    simp [DealsView.next_button, this]
  · intro v hv
    have : ¬(0 < v.current_page) := by omega
    simp [DealsView.previous_button, this]

/-- A concrete qualifying deal used to populate sample result lists. -/
def sampleQDeal : QDeal :=
  { deal := { offer_id := "A", title := "T", url := "U", feed_name := "All",
              sale_price := some 80, list_price := some 200,
              discount_percent := 60, savings_amount := 120,
              is_sold_out := false },
    status := Status.greatDeal }

/-- C9 witness: a 23-item list gives 3 pages, and the invariant holds after
construction. -/
theorem deals_view_pagination_witness :
    List.replicate 23 sampleQDeal ≠ [] ∧
    (DealsView.init (List.replicate 23 sampleQDeal) "Deals").total_pages = 3 ∧
    pageInv (DealsView.init (List.replicate 23 sampleQDeal) "Deals") :=
  ⟨by decide, rfl,
    (deals_view_pagination (List.replicate 23 sampleQDeal) "Deals"
      (by decide)).2.1⟩

/-! ### C6: interleaved refresh triggers

The bot runs on one cooperative event loop: a coroutine yields only at its
await points.  In fetch_and_filter_deals_internal the freshness check on
lines 360-362 runs atomically, after which the coroutine suspends at each
feed fetch (run_in_executor) and at the pacing sleep, and the shared
last_fetch_time is written only on line 399 after the whole cycle.  The
model below runs two such coroutines over the shared timestamp, scheduling
one atomic segment at a time. -/

/-- Program counter of one refresh coroutine: before its freshness check,
suspended mid-cycle with the listed feeds still to fetch, or finished. -/
inductive TaskPC where
  | start
  | fetching (rest : List String)
  | done
deriving DecidableEq, Repr

/-- One refresh trigger: its progress, its force_refresh flag, and the
upstream fetches it has issued so far. -/
structure RefreshTask where
  pc : TaskPC
  force : Bool
  fetched : List String
deriving DecidableEq, Repr

/-- Shared state plus the two competing triggers. -/
structure TwoTaskSys where
  last_fetch_time : ℚ
  t0 : RefreshTask
  t1 : RefreshTask
deriving DecidableEq, Repr

/-- One atomic segment of a refresh coroutine, given the clock value now,
the feed list, and the shared timestamp; returns the task afterwards and
the (possibly updated) shared timestamp.  At start it runs the lines
360-362 check: a non-forced call with a fresh timestamp returns at once,
anything else proceeds to the feed loop.  Each fetching step issues one
upstream fetch then suspends.  After the last feed the cycle publishes and
writes the shared timestamp (line 399). -/
def task_step (now : ℚ) (feeds : List String) (last : ℚ)
    (t : RefreshTask) : RefreshTask × ℚ :=
  match t.pc with
  | TaskPC.start =>
    if ¬t.force ∧ now - last < MAX_CACHE_AGE_SECONDS then
      ({ t with pc := TaskPC.done }, last)
    else ({ t with pc := TaskPC.fetching feeds }, last)
  | TaskPC.fetching [] => ({ t with pc := TaskPC.done }, now)
  | TaskPC.fetching (f :: rest) =>
    ({ t with pc := TaskPC.fetching rest, fetched := t.fetched ++ [f] }, last)
  | TaskPC.done => (t, last)

/-- Run one atomic segment of the scheduled task (false picks the first
trigger, true the second). -/
def sys_step (now : ℚ) (feeds : List String) (s : TwoTaskSys) :
    Bool → TwoTaskSys
  | false =>
    let r := task_step now feeds s.last_fetch_time s.t0
    { s with t0 := r.1, last_fetch_time := r.2 }
  | true =>
    let r := task_step now feeds s.last_fetch_time s.t1
    { s with t1 := r.1, last_fetch_time := r.2 }

/-- Run the system under a given interleaving schedule. -/
def sys_run (now : ℚ) (feeds : List String) (s : TwoTaskSys)
    (sched : List Bool) : TwoTaskSys :=
  sched.foldl (sys_step now feeds) s

/-- C6 counterexample: two non-forced triggers hit a stale cache (last
refresh at 0, clock at 1000).  Under the fair interleaving both pass the
freshness check before either publishes, and after four segments both have
fetched the feed named All and both cycles are still in flight: the later
trigger started a second concurrent cycle and duplicated an upstream fetch
instead of awaiting the first. -/
theorem refresh_duplicate_cycles_ctrex :
    (sys_run 1000 FEED_NAMES
        { last_fetch_time := 0,
          t0 := { pc := TaskPC.start, force := false, fetched := [] },
          t1 := { pc := TaskPC.start, force := false, fetched := [] } }
        [false, true, false, true]).t0.fetched = ["All"] ∧
    (sys_run 1000 FEED_NAMES
        { last_fetch_time := 0,
          t0 := { pc := TaskPC.start, force := false, fetched := [] },
          t1 := { pc := TaskPC.start, force := false, fetched := [] } }
        [false, true, false, true]).t1.fetched = ["All"] ∧
    (sys_run 1000 FEED_NAMES
        { last_fetch_time := 0,
          t0 := { pc := TaskPC.start, force := false, fetched := [] },
          t1 := { pc := TaskPC.start, force := false, fetched := [] } }
        [false, true, false, true]).t0.pc ≠ TaskPC.done ∧
    (sys_run 1000 FEED_NAMES
        { last_fetch_time := 0,
          t0 := { pc := TaskPC.start, force := false, fetched := [] },
          t1 := { pc := TaskPC.start, force := false, fetched := [] } }
        [false, true, false, true]).t1.pc ≠ TaskPC.done := by
  with_unfolding_all decide

/-- C6 amended: the code has no single-flight guard.  The entry check reads
only last_fetch_time, which is written when a cycle completes, so whenever a
second trigger's check runs while a cycle is in flight and passes (it is
forced, or the shared timestamp is still stale), the second trigger starts
its own full cycle and issues the same upstream fetches; triggers coalesce
only when the earlier cycle has already published within the freshness
window. -/
theorem refresh_no_single_flight (now last : ℚ) (force0 force1 : Bool)
    (f : String) (rest : List String)
    (h0 : force0 = true ∨ MAX_CACHE_AGE_SECONDS ≤ now - last)
    (h1 : force1 = true ∨ MAX_CACHE_AGE_SECONDS ≤ now - last) :
    (sys_run now (f :: rest)
        { last_fetch_time := last,
          t0 := { pc := TaskPC.start, force := force0, fetched := [] },
          t1 := { pc := TaskPC.start, force := force1, fetched := [] } }
        [false, true, false, true]).t0.fetched = [f] ∧
    (sys_run now (f :: rest)
        { last_fetch_time := last,
          t0 := { pc := TaskPC.start, force := force0, fetched := [] },
          t1 := { pc := TaskPC.start, force := force1, fetched := [] } }
        [false, true, false, true]).t1.fetched = [f] := by
  have hc0 : ¬(force0 = false ∧ now - last < MAX_CACHE_AGE_SECONDS) := by
    rcases h0 with hf | hstale
    · rintro ⟨hc, -⟩; rw [hf] at hc; exact Bool.noConfusion hc
    · intro hc; exact absurd hc.2 (not_lt.mpr hstale)
  have hc1 : ¬(force1 = false ∧ now - last < MAX_CACHE_AGE_SECONDS) := by
    rcases h1 with hf | hstale
    · rintro ⟨hc, -⟩; rw [hf] at hc; exact Bool.noConfusion hc
    · intro hc; exact absurd hc.2 (not_lt.mpr hstale)
  constructor <;>
    simp [sys_run, sys_step, task_step, hc0, hc1]

/-- C6 witness: one forced trigger and one natural trigger on a stale cache
both fetch the feed named All. -/
theorem refresh_no_single_flight_witness :
    ((true : Bool) = true ∨ MAX_CACHE_AGE_SECONDS ≤ (1000 : ℚ) - 0) ∧
    ((false : Bool) = true ∨ MAX_CACHE_AGE_SECONDS ≤ (1000 : ℚ) - 0) ∧
    (sys_run 1000 ("All" :: ["Clearance"])
        { last_fetch_time := 0,
          t0 := { pc := TaskPC.start, force := true, fetched := [] },
          t1 := { pc := TaskPC.start, force := false, fetched := [] } }
        [false, true, false, true]).t0.fetched = ["All"] ∧
    (sys_run 1000 ("All" :: ["Clearance"])
        { last_fetch_time := 0,
          t0 := { pc := TaskPC.start, force := true, fetched := [] },
          t1 := { pc := TaskPC.start, force := false, fetched := [] } }
        [false, true, false, true]).t1.fetched = ["All"] := by
  have hstale : MAX_CACHE_AGE_SECONDS ≤ (1000 : ℚ) - 0 := by
    norm_num [MAX_CACHE_AGE_SECONDS]
  exact ⟨Or.inl rfl, Or.inr hstale,
    refresh_no_single_flight 1000 0 true false "All" ["Clearance"]
      (Or.inl rfl) (Or.inr hstale)⟩

end WootBot
